import Mathlib

/-!
# Verification of the mev-searcher core against its specification

Shallow embedding of the Go sources of `pulkyeet/mev-searcher`:

* `internal/arbitrage/math.go`, `detector.go`, `types.go` — AMM math,
  optimal-input search, opportunity detection (namespace `Arbitrage`);
* `internal/simulator/fork.go`, `types.go`, `executor.go` and the bundle
  simulator — forked state store with snapshot/revert, transaction and
  bundle execution (namespace `Simulator`);
* the ground-truth arbitrage recognizer of the backtest package
  (namespace `Backtest`).

Go `big.Int` is modelled as `Int` (Go's `Div` is Euclidean division, which
is Lean's `/` on `Int`); `uint64` as `Nat`; 20-byte addresses and 32-byte
hashes/words as `Nat`; byte slices as `List Nat`; Go maps as functions
into `Option`.  Go's maps are compared by key-set and values, which the
functional encoding captures extensionally.
-/

/-- 20-byte Ethereum address, modelled as a natural number. -/
abbrev Address := Nat

/-- 32-byte hash / storage word, modelled as a natural number. -/
abbrev Word := Nat

/-- Big-endian interpretation of a byte slice as a natural number:
the value `big.Int.SetBytes` produces. -/
def bytesToNat (bs : List Nat) : Nat :=
  bs.foldl (fun acc b => acc * 256 + b) 0

/-- `common.BytesToHash` / `Hash.SetBytes`: the byte slice is cropped from
the left to 32 bytes, i.e. the value is taken modulo `2 ^ 256`. -/
def bytesToHash (bs : List Nat) : Word :=
  bytesToNat bs % 2 ^ 256

/-- `types.Log` (go-ethereum): an event log — emitting address, indexed
topics, ABI-encoded data bytes. -/
structure Log where
  address : Address
  topics : List Word
  data : List Nat
deriving DecidableEq

namespace Arbitrage

/-- `Pool` (internal/arbitrage/types.go:10-17): a Uniswap-V2 style pool. -/
structure Pool where
  address : Address
  token0 : Address
  token1 : Address
  reserve0 : Int
  reserve1 : Int
  dex : String
deriving DecidableEq

/-- `PairPools` (internal/arbitrage/types.go:20-26): pools sharing one
token pair across DEXes. -/
structure PairPools where
  token0 : Address
  token1 : Address
  token0Dec : Nat
  token1Dec : Nat
  pools : List Pool
deriving DecidableEq

/-- `GetAmountOut` (internal/arbitrage/math.go:83-100): output amount of a
Uniswap-V2 swap with the 0.3 percent fee.  Non-positive input or reserves
give zero; otherwise
`(amountIn * 997 * reserveOut) div (reserveIn * 1000 + amountIn * 997)`
with `big.Int.Div`, i.e. Euclidean division (equal to floor division here
since the divisor is positive). -/
def GetAmountOut (amountIn reserveIn reserveOut : Int) : Int :=
  if amountIn ≤ 0 then 0
  else if reserveIn ≤ 0 ∨ reserveOut ≤ 0 then 0
  else
    let amountInWithFee := amountIn * 997
    let numerator := amountInWithFee * reserveOut
    let denominator := reserveIn * 1000 + amountInWithFee
    numerator / denominator

/-- `SimulateArbitrage` (internal/arbitrage/math.go:104-131): profit of the
two-leg swap of `amountIn` through the cheap pool then the expensive
pool. -/
def SimulateArbitrage (amountIn : Int) (cheapPool expensivePool : Pool)
    (token0IsBuyToken : Bool) : Int :=
  let buyReserveIn := if token0IsBuyToken then cheapPool.reserve1 else cheapPool.reserve0
  let buyReserveOut := if token0IsBuyToken then cheapPool.reserve0 else cheapPool.reserve1
  let sellReserveIn := if token0IsBuyToken then expensivePool.reserve0 else expensivePool.reserve1
  let sellReserveOut := if token0IsBuyToken then expensivePool.reserve1 else expensivePool.reserve0
  let amountBought := GetAmountOut amountIn buyReserveIn buyReserveOut
  let amountOut := GetAmountOut amountBought sellReserveIn sellReserveOut
  amountOut - amountIn

/-- One of the two best-candidate updates inside the search loop of
`FindOptimalInput` (internal/arbitrage/math.go:161-168): replace the
running `(bestInput, bestProfit)` when the candidate's profit is strictly
greater. -/
def bestUpdate (best cand : Int × Int) : Int × Int :=
  if best.2 < cand.2 then cand else best

/-- One iteration step of the search loop of `FindOptimalInput`
(internal/arbitrage/math.go:148-176), iterated `steps` times.  State is
`(left, right, bestInput, bestProfit)`.  `third` uses `big.Int.Div`,
Euclidean division, which matters when `right < left`.  The two
sequential best-candidate updates of the source are the two nested
`bestUpdate` applications (the second compares against the already
updated best, as the source reassigns `bestProfit` in place). -/
def findOptimalLoop (cheapPool expensivePool : Pool) (token0IsBuyToken : Bool) :
    Nat → Int → Int → Int → Int → Int × Int
  | 0, _, _, bestInput, bestProfit => (bestInput, bestProfit)
  | steps + 1, left, right, bestInput, bestProfit =>
    let third := (right - left) / 3
    let mid1 := left + third
    let mid2 := left + third * 2
    let profit1 := SimulateArbitrage mid1 cheapPool expensivePool token0IsBuyToken
    let profit2 := SimulateArbitrage mid2 cheapPool expensivePool token0IsBuyToken
    let best2 := bestUpdate (bestUpdate (bestInput, bestProfit) (mid1, profit1)) (mid2, profit2)
    if profit2 < profit1 then
      findOptimalLoop cheapPool expensivePool token0IsBuyToken steps left mid2 best2.1 best2.2
    else
      findOptimalLoop cheapPool expensivePool token0IsBuyToken steps mid1 right best2.1 best2.2

/-- `FindOptimalInput` (internal/arbitrage/math.go:134-179): 20-step
ternary search for the profit-maximising input, seeded with
`(minAmount, profit minAmount)`. -/
def FindOptimalInput (cheapPool expensivePool : Pool) (token0IsBuyToken : Bool)
    (minAmount maxAmount : Int) : Int × Int :=
  findOptimalLoop cheapPool expensivePool token0IsBuyToken 20 minAmount maxAmount
    minAmount (SimulateArbitrage minAmount cheapPool expensivePool token0IsBuyToken)

/-- The lower search bound passed by `DetectOpportunity` to
`FindOptimalInput` (internal/arbitrage/detector.go:36):
`big.NewInt(100) * big.NewInt(1e6)`, a constant. -/
def detectMinAmount : Int := 100 * 1000000

/-- The upper search bound passed by `DetectOpportunity` to
`FindOptimalInput` (internal/arbitrage/detector.go:37):
`big.NewInt(10000) * big.NewInt(1e6)`, a constant. -/
def detectMaxAmount : Int := 10000 * 1000000

/-- The control flow of `DetectOpportunity`
(internal/arbitrage/detector.go:10-39) down to its `FindOptimalInput`
call: the result is the `(minAmount, maxAmount)` range handed to the
search, `none` when the function errors out (< 2 pools) or returns before
searching (spread below the 0.05 threshold).  The spread is computed in
the source with `big.Float` / `float64` arithmetic (`ComparePrices`); the
model takes the computed spread as the rational argument `priceDiff`,
since the range does not depend on it beyond the threshold test. -/
def detectSearchRange (pair : PairPools) (priceDiff : ℚ) : Option (Int × Int) :=
  if pair.pools.length < 2 then none
  else if priceDiff < 5 / 100 then none
  else some (detectMinAmount, detectMaxAmount)

/-- The search range as the specification words it (spec 4.H step 4):
from `100 * 10 ^ dec0` to `10000 * 10 ^ dec0` in token0 base units, where
`dec0` is the pair's token0 decimal count. -/
def specSearchRange (pair : PairPools) : Int × Int :=
  (100 * 10 ^ pair.token0Dec, 10000 * 10 ^ pair.token0Dec)

end Arbitrage

namespace Simulator

/-- `StateCache` (internal/simulator/types.go:26-31): the tier-1
(execution) cache — four Go maps keyed by address.  `storage` is the
nested map, whose inner map may be absent (`nil`) for an address. -/
structure StateCache where
  balances : Address → Option Int
  nonces : Address → Option Nat
  code : Address → Option (List Nat)
  storage : Address → Option (Word → Option Word)

/-- `NewStateCache` (internal/simulator/types.go:33-40): all four maps
empty. -/
def NewStateCache : StateCache :=
  { balances := fun _ => none
    nonces := fun _ => none
    code := fun _ => none
    storage := fun _ => none }

/-- The part of `StateFork` (internal/simulator/fork.go:17-40) the
snapshot claims concern: the tier-1 cache and the snapshot stack.  Tiers
2-4 (LRU, SQLite, RPC) hold the immutable historical chain state for the
fork's block and are modelled by the read oracle `External` below. -/
structure StateFork where
  cache : StateCache
  snapshots : List StateCache

/-- Read oracle standing for tiers 2-4 of the fork
(internal/simulator/fork.go:108-157 and analogues): for a fixed block the
LRU, the SQLite store and the archive RPC all return the one historical
value, so the three lower tiers collapse to a single lookup.  `none`
models the RPC-error path, on which the fork returns the error without
touching tier 1. -/
structure External where
  balances : Address → Option Int
  nonces : Address → Option Nat
  code : Address → Option (List Nat)
  storage : Address → Word → Option Word

/-- `StateFork.SetBalance` (internal/simulator/fork.go:469-473): writes
tier 1 only (the Go code stores a defensive copy of the big.Int, identity
in a functional model). -/
def SetBalance (f : StateFork) (addr : Address) (bal : Int) : StateFork :=
  { f with cache := { f.cache with
      balances := fun a => if a = addr then some bal else f.cache.balances a } }

/-- `StateFork.SetNonce` (internal/simulator/fork.go:475-479). -/
def SetNonce (f : StateFork) (addr : Address) (nonce : Nat) : StateFork :=
  { f with cache := { f.cache with
      nonces := fun a => if a = addr then some nonce else f.cache.nonces a } }

/-- `StateFork.SetStorageAt` (internal/simulator/fork.go:481-488): creates
the inner map when absent, then writes the slot. -/
def SetStorageAt (f : StateFork) (addr : Address) (slot val : Word) : StateFork :=
  let inner := (f.cache.storage addr).getD (fun _ => none)
  { f with cache := { f.cache with
      storage := fun a =>
        if a = addr then some (fun s => if s = slot then some val else inner s)
        else f.cache.storage a } }

/-- Tier-1 effect of `StateFork.GetBalance`
(internal/simulator/fork.go:96-158): a tier-1 hit leaves the fork
unchanged; a miss backfills tier 1 from the lower tiers (or, on the
RPC-error path, returns without mutating). -/
def GetBalanceFork (ext : External) (f : StateFork) (addr : Address) : StateFork :=
  match f.cache.balances addr with
  | some _ => f
  | none =>
    match ext.balances addr with
    | none => f
    | some bal => SetBalance f addr bal

/-- Tier-1 effect of `StateFork.GetNonce`
(internal/simulator/fork.go:161-221). -/
def GetNonceFork (ext : External) (f : StateFork) (addr : Address) : StateFork :=
  match f.cache.nonces addr with
  | some _ => f
  | none =>
    match ext.nonces addr with
    | none => f
    | some n => SetNonce f addr n

/-- Tier-1 effect of `StateFork.GetCode`
(internal/simulator/fork.go:224-284). -/
def GetCodeFork (ext : External) (f : StateFork) (addr : Address) : StateFork :=
  match f.cache.code addr with
  | some _ => f
  | none =>
    match ext.code addr with
    | none => f
    | some c =>
      { f with cache := { f.cache with
          code := fun a => if a = addr then some c else f.cache.code a } }

/-- Tier-1 effect of `StateFork.GetStorageAt`
(internal/simulator/fork.go:287-360). -/
def GetStorageAtFork (ext : External) (f : StateFork) (addr : Address) (slot : Word) :
    StateFork :=
  match (f.cache.storage addr).bind (fun m => m slot) with
  | some _ => f
  | none =>
    match ext.storage addr slot with
    | none => f
    | some v => SetStorageAt f addr slot v

/-- `StateFork.Snapshot` (internal/simulator/fork.go:491-520): deep-copies
tier 1 (identity in the functional model; the Go copy duplicates the
big.Ints and the inner storage maps, and the byte slices it shares are
never mutated in place), pushes the copy, and returns the index of the
pushed entry. -/
def Snapshot (f : StateFork) : Nat × StateFork :=
  (f.snapshots.length, { f with snapshots := f.snapshots ++ [f.cache] })

/-- `StateFork.RevertToSnapshot` (internal/simulator/fork.go:522-533): an
out-of-range id is rejected before any mutation; otherwise tier 1 is
replaced by the saved snapshot and the stack is truncated to the entries
strictly below the id. -/
def RevertToSnapshot (f : StateFork) (snapID : Int) : Except String StateFork :=
  if h : snapID < 0 ∨ (f.snapshots.length : Int) ≤ snapID then
    Except.error "invalid snapshot id"
  else
    Except.ok
      { f with
        cache := f.snapshots.get ⟨snapID.toNat, by omega⟩
        snapshots := f.snapshots.take snapID.toNat }

/-- The fork after a Go call `f.RevertToSnapshot(id)`: the method returns
before mutating the receiver exactly when it reports the error. -/
def revertRun (f : StateFork) (snapID : Int) : StateFork :=
  match RevertToSnapshot f snapID with
  | Except.error _ => f
  | Except.ok f2 => f2

/-- The tier-1 mutations claim C1 ranges over: the three setters of
internal/simulator/fork.go:469-488 and the read-induced backfills of its
four getters. -/
inductive Mutation where
  | setBalance (addr : Address) (bal : Int)
  | setNonce (addr : Address) (nonce : Nat)
  | setStorageAt (addr : Address) (slot val : Word)
  | getBalance (addr : Address)
  | getNonce (addr : Address)
  | getCode (addr : Address)
  | getStorageAt (addr : Address) (slot : Word)

/-- Effect of one mutation on the fork. -/
def applyMut (ext : External) (f : StateFork) : Mutation → StateFork
  | Mutation.setBalance addr bal => SetBalance f addr bal
  | Mutation.setNonce addr n => SetNonce f addr n
  | Mutation.setStorageAt addr slot val => SetStorageAt f addr slot val
  | Mutation.getBalance addr => GetBalanceFork ext f addr
  | Mutation.getNonce addr => GetNonceFork ext f addr
  | Mutation.getCode addr => GetCodeFork ext f addr
  | Mutation.getStorageAt addr slot => GetStorageAtFork ext f addr slot

/-- Effect of a mutation sequence. -/
def applyMuts (ext : External) (f : StateFork) (muts : List Mutation) : StateFork :=
  muts.foldl (applyMut ext) f

/-- `SimulationResult` (internal/simulator/types.go:10-17), the fields the
executor fills. -/
structure SimulationResult where
  success : Bool
  gasUsed : Nat
  logs : List Log
  returnData : List Nat
  revertReason : String
deriving DecidableEq

/-- Net effect of `core.ApplyMessage` (the go-ethereum interpreter, an
external library) on the fork through the `ForkedStateDB` adapter.  The
interpreter reads and writes tier 1 and drives the snapshot stack, but
only ever reverts to snapshots it pushed itself during this message, so
its net effect on a fork whose stack is `S` is a new tier-1 cache `post`
and a stack `S ++ extras`.  `err` is a non-nil error return (insufficient
funds, nonce mismatch, ...); `failed` is `result.Failed()`. -/
structure EvmOutcome where
  err : Option String
  post : StateCache
  extras : List StateCache
  failed : Bool
  usedGas : Nat
  returnData : List Nat
  logs : List Log
  errMsg : String

/-- A signed transaction as the executor consumes it, with the behaviour
of the external library calls made on it: `senderErr` is a
`types.Sender` failure, `intrinsicErr` a `core.IntrinsicGas` failure, and
`run` the outcome of `core.ApplyMessage` as a function of the tier-1
cache the message starts from. -/
structure Tx where
  hash : Word
  senderErr : Option String
  intrinsicErr : Option String
  run : StateCache → EvmOutcome

/-- `Executor.ExecuteTransaction` (internal/simulator/executor.go:25-111):
recover the sender, snapshot the fork, compute intrinsic gas, apply the
message, and revert the snapshot when the message errors or reports
failure.  Returns the `(result-or-error, fork)` pair; on the two `nil,
err` paths the fork is returned as the method left it. -/
def ExecuteTransaction (f : StateFork) (tx : Tx) :
    Except String SimulationResult × StateFork :=
  match tx.senderErr with
  | some e => (Except.error ("failed to get sender: " ++ e), f)
  | none =>
    let snapF := Snapshot f
    let snap := snapF.1
    let f1 := snapF.2
    match tx.intrinsicErr with
    | some e => (Except.error ("intrinsic gas calculation failed: " ++ e), f1)
    | none =>
      let out := tx.run f1.cache
      let f2 : StateFork := { cache := out.post, snapshots := f1.snapshots ++ out.extras }
      match out.err with
      | some e =>
        (Except.ok
          { success := false, gasUsed := 0, logs := [], returnData := []
            revertReason := e },
         revertRun f2 (snap : Int))
      | none =>
        let res : SimulationResult :=
          { success := !out.failed, gasUsed := out.usedGas, logs := out.logs
            returnData := out.returnData
            revertReason := if out.failed then out.errMsg else "" }
        if out.failed then (Except.ok res, revertRun f2 (snap : Int))
        else (Except.ok res, f2)

/-- `TxResult` (bundle simulator): per-transaction result inside a
bundle. -/
structure TxResult where
  txHash : Word
  success : Bool
  gasUsed : Nat
  logs : List Log
  returnData : List Nat
  revertReason : String
deriving DecidableEq

/-- `BundleResult` (bundle simulator). -/
structure BundleResult where
  success : Bool
  transactions : List TxResult
  totalGasUsed : Nat
  revertedAt : Int
deriving DecidableEq

/-- The transaction loop of `BundleSimulator.ExecuteBundle` (bundle
simulator, lines 33-62): execute each transaction in order, accumulate
its result and gas, and on the first failure mark the bundle failed at
that index and revert to the bundle-start snapshot `snapID`. -/
def bundleLoop (snapID : Nat) :
    StateFork → List Tx → Nat → BundleResult → Except String BundleResult × StateFork
  | f, [], _, acc => (Except.ok acc, f)
  | f, tx :: rest, i, acc =>
    match ExecuteTransaction f tx with
    | (Except.error e, f1) =>
      (Except.error ("bundle tx failed with error: " ++ e), revertRun f1 (snapID : Int))
    | (Except.ok sim, f1) =>
      let txr : TxResult :=
        { txHash := tx.hash, success := sim.success, gasUsed := sim.gasUsed
          logs := sim.logs, returnData := sim.returnData
          revertReason := sim.revertReason }
      let acc2 : BundleResult :=
        { acc with
          transactions := acc.transactions ++ [txr]
          totalGasUsed := acc.totalGasUsed + sim.gasUsed }
      if sim.success then bundleLoop snapID f1 rest (i + 1) acc2
      else
        (Except.ok { acc2 with success := false, revertedAt := (i : Int) },
         revertRun f1 (snapID : Int))

/-- `BundleSimulator.ExecuteBundle` (bundle simulator, lines 18-67): an
empty bundle is an error; otherwise snapshot the fork and run the
transaction loop starting from the success accumulator with
`RevertedAt = -1`. -/
def ExecuteBundle (f : StateFork) (txs : List Tx) :
    Except String BundleResult × StateFork :=
  if txs.isEmpty then (Except.error "empty bundle", f)
  else
    let snapF := Snapshot f
    bundleLoop snapF.1 snapF.2 txs 0
      { success := true, transactions := [], totalGasUsed := 0, revertedAt := -1 }

/-- The tier-1 cache with every transaction's mutations kept: the
composition, in bundle order, of the per-transaction interpreter effects
(`core.ApplyMessage` through the state-DB adapter), with no revert
applied.  The all-success path of `ExecuteBundle` must leave exactly this
cache behind. -/
def retainedCache (txs : List Tx) (c : StateCache) : StateCache :=
  txs.foldl (fun c tx => (tx.run c).post) c

/-- The account values the `ForkedStateDB` adapter observes for one
address: its `GetBalance` yields a `uint256` (fork errors and overflow
give zero), `GetNonce` a `uint64` (errors give zero), `GetCode` the code
bytes (errors give nil).  For a fixed fork the three reads are
consistent, so the adapter-level claims are stated over this record. -/
structure Account where
  balance : Nat
  nonce : Nat
  code : List Nat
deriving DecidableEq

/-- `ForkedStateDB.Exist` (state-DB adapter, lines 167-172): an account
exists when it has code, a positive balance, or a positive nonce. -/
def Exist (acct : Account) : Bool :=
  decide (0 < acct.code.length) || decide (0 < acct.balance) || decide (0 < acct.nonce)

/-- `crypto.Keccak256Hash(nil)`: the canonical hash of the empty byte
string, the constant the adapter returns for an existing account with
empty code. -/
def emptyCodeHash : Word :=
  0xc5d2460186f7233c927e7db2dcc703c0e500b653ca82273b7bfad8045d85a470

/-- `ForkedStateDB.GetCodeHash` (state-DB adapter, lines 102-111): empty
code gives the canonical empty-code hash for an existing account and the
zero hash otherwise; non-empty code gives `common.BytesToHash(code)` —
the code bytes cropped/right-aligned into a 32-byte word, not a hash of
them. -/
def GetCodeHash (acct : Account) : Word :=
  if acct.code.length = 0 then
    if Exist acct then emptyCodeHash else 0
  else bytesToHash acct.code

/-- The adapter-local state of `ForkedStateDB` (state-DB adapter, lines
18-25): log buffer, refund counter, access lists, and the per-transaction
original-storage map.  The struct has no transient-storage field. -/
structure ForkedStateDB where
  logs : List Log
  refund : Nat
  accessListAddr : Address → Bool
  accessList : Address → Option (Word → Bool)
  originalStorage : Address → Option (Word → Option Word)

/-- `NewForkedStateDB` (state-DB adapter, lines 27-36): all buffers and
maps start empty. -/
def NewForkedStateDB : ForkedStateDB :=
  { logs := []
    refund := 0
    accessListAddr := fun _ => false
    accessList := fun _ => none
    originalStorage := fun _ => none }

/-- `ForkedStateDB.GetTransientState` (state-DB adapter, lines 158-160):
returns the zero word for every address and key, reading no state. -/
def GetTransientState (_s : ForkedStateDB) (_addr : Address) (_key : Word) : Word :=
  0

/-- `ForkedStateDB.SetTransientState` (state-DB adapter, lines 162-164):
a no-op. -/
def SetTransientState (s : ForkedStateDB) (_addr : Address) (_key _value : Word) :
    ForkedStateDB :=
  s

end Simulator

namespace Backtest

/-- `swapEventTopic` (recognizer, line 15): topic0 of the Uniswap V2
`Swap(address,uint256,uint256,uint256,uint256,address)` event. -/
def swapEventTopic : Word :=
  0xd78ad95fa46c994b6551d0da85fc275fe613ce37657fb8d5e3d130840159d822

/-- `swapDirection` (recognizer, lines 80-100): classify a log from the
four non-indexed 32-byte amount fields; `+1` for a token0-in/token1-out
swap, `-1` for the mirror, `0` for anything else (wrong topic, short
data, or mixed amounts). -/
def swapDirection (log : Log) : Int :=
  if log.topics.head? ≠ some swapEventTopic then 0
  else if log.data.length < 128 then 0
  else
    let amount0In := bytesToNat (log.data.take 32)
    let amount1In := bytesToNat ((log.data.drop 32).take 32)
    let amount0Out := bytesToNat ((log.data.drop 64).take 32)
    let amount1Out := bytesToNat ((log.data.drop 96).take 32)
    if 0 < amount0In ∧ 0 < amount1Out ∧ amount1In = 0 ∧ amount0Out = 0 then 1
    else if 0 < amount1In ∧ 0 < amount0Out ∧ amount0In = 0 ∧ amount1Out = 0 then -1
    else 0

/-- `arePairMatched` (recognizer, lines 61-78), relative to the pair
groups that `buildPairGroups` produced: two pool addresses match when
some group contains both.  `buildPairGroups` itself derives the groups by
keccak-based CREATE2 arithmetic over the tracked token pairs; the
recognizer claims are stated for arbitrary groups. -/
def arePairMatched (groups : List (List Address)) (a b : Address) : Bool :=
  groups.any (fun g => g.contains a && g.contains b)

/-- One write `poolSwaps[addr] = dir` into the per-transaction Go map,
modelled as an association list with distinct keys: an existing key is
overwritten in place, a new key is appended. -/
def updateSwap (m : List (Address × Int)) (a : Address) (d : Int) :
    List (Address × Int) :=
  if m.any (fun p => p.1 = a) then
    m.map (fun p => if p.1 = a then (a, d) else p)
  else m ++ [(a, d)]

/-- The `poolSwaps` map a transaction's log scan builds (recognizer,
lines 138-148): for each log on a tracked pool whose direction is
non-zero, record (overwriting) that direction for the pool. -/
def poolSwapsOf (tracked : Address → Bool) (logs : List Log) :
    List (Address × Int) :=
  logs.foldl
    (fun m log =>
      if tracked log.address then
        let d := swapDirection log
        if d ≠ 0 then updateSwap m log.address d else m
      else m)
    []

/-- The nested pair scan of the recognizer (lines 159-167): some two
distinct entries of `poolSwaps` are pair-matched with differing
directions. -/
def hasOppositePair (groups : List (List Address)) :
    List (Address × Int) → Bool
  | [] => false
  | (a, d) :: rest =>
    rest.any (fun q => arePairMatched groups a q.1 && decide (d ≠ q.2)) ||
      hasOppositePair groups rest

/-- The per-transaction arbitrage classification of `FindActualArbitrages`
(recognizer, lines 138-171), relative to the tracked-pool set and pair
groups from `buildPairGroups`: build `poolSwaps` from the receipt's logs;
a transaction with fewer than two swapped pools is skipped; otherwise it
is an arbitrage iff two pair-matched pools have differing directions. -/
def isArbTx (tracked : Address → Bool) (groups : List (List Address))
    (logs : List Log) : Bool :=
  let m := poolSwapsOf tracked logs
  if m.length < 2 then false else hasOppositePair groups m

/-- The direction of the last non-zero-direction swap log a transaction
emitted on pool `p` (zero when there is none): the value at key `p` of
the recognizer's `poolSwaps` map, characterised without the map. -/
def lastSwapDir (logs : List Log) (p : Address) : Int :=
  logs.foldl
    (fun acc l => if l.address = p ∧ swapDirection l ≠ 0 then swapDirection l else acc)
    0

end Backtest

/-!
## Theorems

Helper lemmas first, then one theorem per claim (with its witness or
counterexample where required).
-/

namespace Arbitrage

/-- The output amount is never negative. -/
theorem GetAmountOut_nonneg (a b c : Int) : 0 ≤ GetAmountOut a b c := by
  unfold GetAmountOut
  split_ifs with h1 h2
  · exact le_refl 0
  · exact le_refl 0
  · push_neg at h1 h2
    exact Int.ediv_nonneg (by nlinarith [h2.1, h2.2]) (by nlinarith [h2.1])

/-- On positive inputs the guards fall through to the fee formula. -/
theorem GetAmountOut_pos_eq (a b c : Int) (ha : 0 < a) (hb : 0 < b) (hc : 0 < c) :
    GetAmountOut a b c = a * 997 * c / (b * 1000 + a * 997) := by
  unfold GetAmountOut
  rw [if_neg (by omega), if_neg (by push_neg; exact ⟨hb, hc⟩)]

/-- Monotonicity of Euclidean division across different positive divisors,
from cross multiplication. -/
theorem ediv_le_ediv_cross {n1 d1 n2 d2 : Int} (hd1 : 0 < d1) (hd2 : 0 < d2)
    (h : n1 * d2 ≤ n2 * d1) : n1 / d1 ≤ n2 / d2 := by
  rw [Int.le_ediv_iff_mul_le hd2]
  have h1 : n1 / d1 * d1 ≤ n1 := Int.ediv_mul_le n1 (by omega)
  have h2 : n1 / d1 * d2 * d1 ≤ n2 * d1 := by
    nlinarith [mul_le_mul_of_nonneg_right h1 (le_of_lt hd2)]
  exact le_of_mul_le_mul_right h2 hd1

end Arbitrage

/-- Claim C3: for positive inputs, GetAmountOut is the floor of
(amountIn * 997 * reserveOut) over (reserveIn * 1000 + amountIn * 997);
when any input is non-positive it is zero. -/
theorem getAmountOut_formula (amountIn reserveIn reserveOut : Int) :
    (0 < amountIn → 0 < reserveIn → 0 < reserveOut →
      Arbitrage.GetAmountOut amountIn reserveIn reserveOut =
        Int.fdiv (amountIn * 997 * reserveOut) (reserveIn * 1000 + amountIn * 997)) ∧
    (amountIn ≤ 0 ∨ reserveIn ≤ 0 ∨ reserveOut ≤ 0 →
      Arbitrage.GetAmountOut amountIn reserveIn reserveOut = 0) := by
  constructor
  · intro ha hin hout
    rw [Arbitrage.GetAmountOut_pos_eq amountIn reserveIn reserveOut ha hin hout]
    rw [Int.fdiv_eq_ediv _ (by nlinarith)]
  · intro h
    unfold Arbitrage.GetAmountOut
    split_ifs with h1 h2
    · rfl
    · rfl
    · exfalso
      push_neg at h1 h2
      rcases h with h | h | h <;> omega

/-- Claim C4, counterexample to the strictly-increasing part: with
reserves rIn = 2 and rOut = 1 the output is 0 at both x = 1 and x = 2,
although 0 < 1 < 2 ≤ rIn. -/
theorem getAmountOut_strict_cx :
    (0 : Int) < 2 ∧ (0 : Int) < 1 ∧ (0 : Int) < 1 ∧ (1 : Int) < 2 ∧ (2 : Int) ≤ 2 ∧
      ¬ Arbitrage.GetAmountOut 1 2 1 < Arbitrage.GetAmountOut 2 2 1 := by
  decide

/-- Claim C4 (amended): for fixed positive reserves, GetAmountOut is
monotonically non-decreasing in the input over x ≥ 0.  (The
strictly-increasing part of the claim fails: integer division
plateaus.) -/
theorem getAmountOut_monotone (rIn rOut x y : Int) (hin : 0 < rIn) (hout : 0 < rOut)
    (hx : 0 ≤ x) (hxy : x ≤ y) :
    Arbitrage.GetAmountOut x rIn rOut ≤ Arbitrage.GetAmountOut y rIn rOut := by
  by_cases hx0 : x ≤ 0
  · have hz : Arbitrage.GetAmountOut x rIn rOut = 0 := by
      unfold Arbitrage.GetAmountOut
      rw [if_pos hx0]
    rw [hz]
    exact Arbitrage.GetAmountOut_nonneg y rIn rOut
  · push_neg at hx0
    have hy0 : 0 < y := lt_of_lt_of_le hx0 hxy
    rw [Arbitrage.GetAmountOut_pos_eq x rIn rOut hx0 hin hout,
      Arbitrage.GetAmountOut_pos_eq y rIn rOut hy0 hin hout]
    apply Arbitrage.ediv_le_ediv_cross (by nlinarith) (by nlinarith)
    nlinarith [mul_nonneg (mul_nonneg (sub_nonneg.2 hxy) (le_of_lt hin)) (le_of_lt hout)]

/-- Claim C4, witness: the amended monotonicity at a concrete input. -/
theorem getAmountOut_monotone_witness :
    (0 : Int) < 1000 ∧ (0 : Int) < 2000 ∧ (0 : Int) ≤ 5 ∧ (5 : Int) ≤ 700 ∧
      Arbitrage.GetAmountOut 5 1000 2000 ≤ Arbitrage.GetAmountOut 700 1000 2000 :=
  ⟨by decide, by decide, by decide, by decide,
    getAmountOut_monotone 1000 2000 5 700 (by decide) (by decide) (by decide) (by decide)⟩

namespace Arbitrage

/-- A best-candidate update preserves profit-tracking and never lowers
the best profit. -/
theorem bestUpdate_spec (sim : Int → Int) (best cand : Int × Int)
    (hb : best.2 = sim best.1) (hc : cand.2 = sim cand.1) :
    (bestUpdate best cand).2 = sim (bestUpdate best cand).1 ∧
      best.2 ≤ (bestUpdate best cand).2 := by
  unfold bestUpdate
  split_ifs with hlt
  · exact ⟨hc, le_of_lt hlt⟩
  · exact ⟨hb, le_refl best.2⟩

/-- Invariant of the search loop: the best profit tracks the best input
and never decreases below its seed. -/
theorem findOptimalLoop_invariant (c e : Pool) (t : Bool) :
    ∀ (steps : Nat) (l r bI bP : Int), bP = SimulateArbitrage bI c e t →
      (findOptimalLoop c e t steps l r bI bP).2 =
          SimulateArbitrage (findOptimalLoop c e t steps l r bI bP).1 c e t ∧
        bP ≤ (findOptimalLoop c e t steps l r bI bP).2 := by
  intro steps
  induction steps with
  | zero =>
    intro l r bI bP h
    exact ⟨h, le_refl bP⟩
  | succ n ih =>
    intro l r bI bP h
    have hb1 := bestUpdate_spec (fun x => SimulateArbitrage x c e t) (bI, bP)
      (l + (r - l) / 3, SimulateArbitrage (l + (r - l) / 3) c e t) h rfl
    have hb2 := bestUpdate_spec (fun x => SimulateArbitrage x c e t)
      (bestUpdate (bI, bP) (l + (r - l) / 3, SimulateArbitrage (l + (r - l) / 3) c e t))
      (l + (r - l) / 3 * 2, SimulateArbitrage (l + (r - l) / 3 * 2) c e t) hb1.1 rfl
    simp only [findOptimalLoop]
    split_ifs with hc
    · have hrec := ih l (l + (r - l) / 3 * 2) _ _ hb2.1
      exact ⟨hrec.1, le_trans (le_trans hb1.2 hb2.2) hrec.2⟩
    · have hrec := ih (l + (r - l) / 3) r _ _ hb2.1
      exact ⟨hrec.1, le_trans (le_trans hb1.2 hb2.2) hrec.2⟩

end Arbitrage

/-- Claim C8, counterexample: with cheap reserves (1000, 2000), expensive
reserves (1000, 1000), direction false and the inverted range
minAmount = 800 > maxAmount = 1, FindOptimalInput returns (131, 56), not
(minAmount, profit(minAmount)) = (800, -331): the loop still probes
points and finds a better input. -/
theorem findOptimalInput_inverted_cx :
    Arbitrage.FindOptimalInput
        { address := 1, token0 := 10, token1 := 11, reserve0 := 1000,
          reserve1 := 2000, dex := "uniswap" }
        { address := 2, token0 := 10, token1 := 11, reserve0 := 1000,
          reserve1 := 1000, dex := "sushiswap" } false 800 1 = (131, 56) ∧
      Arbitrage.SimulateArbitrage 800
        { address := 1, token0 := 10, token1 := 11, reserve0 := 1000,
          reserve1 := 2000, dex := "uniswap" }
        { address := 2, token0 := 10, token1 := 11, reserve0 := 1000,
          reserve1 := 1000, dex := "sushiswap" } false = -331 ∧
      ((131 : Int), (56 : Int)) ≠ (800, -331) := by
  refine ⟨?_, ?_, ?_⟩
  · set_option maxRecDepth 100000 in decide
  · decide
  · decide

/-- Claim C8 (amended): when minAmount > maxAmount the search still runs
its 20 iterations; the returned pair (x, p) satisfies
p = SimulateArbitrage(x) and p ≥ SimulateArbitrage(minAmount), but is not
in general (minAmount, profit(minAmount)). -/
theorem findOptimalInput_inverted_range (c e : Arbitrage.Pool) (t : Bool)
    (minAmount maxAmount : Int) (h : maxAmount < minAmount) :
    (Arbitrage.FindOptimalInput c e t minAmount maxAmount).2 =
        Arbitrage.SimulateArbitrage
          (Arbitrage.FindOptimalInput c e t minAmount maxAmount).1 c e t ∧
      Arbitrage.SimulateArbitrage minAmount c e t ≤
        (Arbitrage.FindOptimalInput c e t minAmount maxAmount).2 := by
  unfold Arbitrage.FindOptimalInput
  exact Arbitrage.findOptimalLoop_invariant c e t 20 minAmount maxAmount minAmount _ rfl

/-- Claim C8, witness: the amended statement at the counterexample's
concrete pools and inverted range. -/
theorem findOptimalInput_inverted_range_witness :
    (1 : Int) < 800 ∧
      ((Arbitrage.FindOptimalInput
            { address := 1, token0 := 10, token1 := 11, reserve0 := 1000,
              reserve1 := 2000, dex := "uniswap" }
            { address := 2, token0 := 10, token1 := 11, reserve0 := 1000,
              reserve1 := 1000, dex := "sushiswap" } false 800 1).2 =
          Arbitrage.SimulateArbitrage
            (Arbitrage.FindOptimalInput
              { address := 1, token0 := 10, token1 := 11, reserve0 := 1000,
                reserve1 := 2000, dex := "uniswap" }
              { address := 2, token0 := 10, token1 := 11, reserve0 := 1000,
                reserve1 := 1000, dex := "sushiswap" } false 800 1).1
            { address := 1, token0 := 10, token1 := 11, reserve0 := 1000,
              reserve1 := 2000, dex := "uniswap" }
            { address := 2, token0 := 10, token1 := 11, reserve0 := 1000,
              reserve1 := 1000, dex := "sushiswap" } false ∧
        Arbitrage.SimulateArbitrage 800
            { address := 1, token0 := 10, token1 := 11, reserve0 := 1000,
              reserve1 := 2000, dex := "uniswap" }
            { address := 2, token0 := 10, token1 := 11, reserve0 := 1000,
              reserve1 := 1000, dex := "sushiswap" } false ≤
          (Arbitrage.FindOptimalInput
            { address := 1, token0 := 10, token1 := 11, reserve0 := 1000,
              reserve1 := 2000, dex := "uniswap" }
            { address := 2, token0 := 10, token1 := 11, reserve0 := 1000,
              reserve1 := 1000, dex := "sushiswap" } false 800 1).2) :=
  ⟨by decide,
    findOptimalInput_inverted_range
      { address := 1, token0 := 10, token1 := 11, reserve0 := 1000,
        reserve1 := 2000, dex := "uniswap" }
      { address := 2, token0 := 10, token1 := 11, reserve0 := 1000,
        reserve1 := 1000, dex := "sushiswap" } false 800 1 (by decide)⟩

/-- Claim C7, counterexample: a PairPools whose token0 has 18 decimals,
two pools, and a spread of 1 (well above the threshold): DetectOpportunity
hands FindOptimalInput the fixed range (100 * 10^6, 10000 * 10^6), which
differs from the spec's (100 * 10^18, 10000 * 10^18). -/
theorem detectSearchRange_decimals_cx :
    Arbitrage.detectSearchRange
        { token0 := 1, token1 := 2, token0Dec := 18, token1Dec := 6,
          pools :=
            [{ address := 1, token0 := 1, token1 := 2, reserve0 := 1000,
               reserve1 := 2000, dex := "uniswap" },
             { address := 2, token0 := 1, token1 := 2, reserve0 := 1000,
               reserve1 := 1000, dex := "sushiswap" }] } 1 =
      some (Arbitrage.detectMinAmount, Arbitrage.detectMaxAmount) ∧
    some (Arbitrage.detectMinAmount, Arbitrage.detectMaxAmount) ≠
      some (Arbitrage.specSearchRange
        { token0 := 1, token1 := 2, token0Dec := 18, token1Dec := 6,
          pools :=
            [{ address := 1, token0 := 1, token1 := 2, reserve0 := 1000,
               reserve1 := 2000, dex := "uniswap" },
             { address := 2, token0 := 1, token1 := 2, reserve0 := 1000,
               reserve1 := 1000, dex := "sushiswap" }] }) := by
  constructor
  · unfold Arbitrage.detectSearchRange
    rw [if_neg (by norm_num), if_neg (by norm_num)]
  · simp only [Arbitrage.detectMinAmount, Arbitrage.detectMaxAmount,
      Arbitrage.specSearchRange]
    decide

/-- Claim C7 (amended): for every PairPools with at least two pools whose
spread passes the threshold, the optimal-input search range is the fixed
(100 * 10^6, 10000 * 10^6) in base units, independent of the pair's
token0 decimal count. -/
theorem detectSearchRange_fixed (pair : Arbitrage.PairPools) (priceDiff : ℚ)
    (h2 : 2 ≤ pair.pools.length) (hth : ¬ priceDiff < 5 / 100) :
    Arbitrage.detectSearchRange pair priceDiff = some (100 * 10 ^ 6, 10000 * 10 ^ 6) := by
  unfold Arbitrage.detectSearchRange
  rw [if_neg (by omega), if_neg hth]
  norm_num [Arbitrage.detectMinAmount, Arbitrage.detectMaxAmount]

/-- Claim C7, witness: the amended statement at the counterexample's
pair. -/
theorem detectSearchRange_fixed_witness :
    2 ≤ ([{ address := 1, token0 := 1, token1 := 2, reserve0 := 1000,
            reserve1 := 2000, dex := "uniswap" },
          { address := 2, token0 := 1, token1 := 2, reserve0 := 1000,
            reserve1 := 1000, dex := "sushiswap" }] : List Arbitrage.Pool).length ∧
      ¬ (1 : ℚ) < 5 / 100 ∧
      Arbitrage.detectSearchRange
          { token0 := 1, token1 := 2, token0Dec := 18, token1Dec := 6,
            pools :=
              [{ address := 1, token0 := 1, token1 := 2, reserve0 := 1000,
                 reserve1 := 2000, dex := "uniswap" },
               { address := 2, token0 := 1, token1 := 2, reserve0 := 1000,
                 reserve1 := 1000, dex := "sushiswap" }] } 1 =
        some (100 * 10 ^ 6, 10000 * 10 ^ 6) :=
  ⟨by decide, by norm_num,
    detectSearchRange_fixed
      { token0 := 1, token1 := 2, token0Dec := 18, token1Dec := 6,
        pools :=
          [{ address := 1, token0 := 1, token1 := 2, reserve0 := 1000,
             reserve1 := 2000, dex := "uniswap" },
           { address := 2, token0 := 1, token1 := 2, reserve0 := 1000,
             reserve1 := 1000, dex := "sushiswap" }] } 1 (by decide) (by norm_num)⟩

namespace Simulator

/-- Reverting to the index of a saved snapshot restores that snapshot as
tier 1 and truncates the stack to the entries below it. -/
theorem revert_append (f0 f : StateFork) (tail : List StateCache)
    (hf : f.snapshots = f0.snapshots ++ [f0.cache] ++ tail) :
    RevertToSnapshot f (f0.snapshots.length : Int) =
      Except.ok { cache := f0.cache, snapshots := f0.snapshots } := by
  have hlen : f.snapshots.length = f0.snapshots.length + 1 + tail.length := by
    rw [hf]; simp; omega
  unfold RevertToSnapshot
  rw [dif_neg (by rw [hlen]; omega)]
  simp only [List.get_eq_getElem, Int.toNat_natCast, hf]
  rw [List.getElem_append_left
      (show f0.snapshots.length < (f0.snapshots ++ [f0.cache]).length by simp)]
  rw [List.getElem_concat_length _ _ _ rfl]
  rw [List.take_append_of_le_length (by simp),
    List.take_append_of_le_length (le_refl _), List.take_length]

/-- The in-place form of `revert_append`. -/
theorem revertRun_append (f0 f : StateFork) (tail : List StateCache)
    (hf : f.snapshots = f0.snapshots ++ [f0.cache] ++ tail) :
    revertRun f (f0.snapshots.length : Int) =
      { cache := f0.cache, snapshots := f0.snapshots } := by
  unfold revertRun
  rw [revert_append f0 f tail hf]

/-- No mutation touches the snapshot stack. -/
theorem applyMut_snapshots (ext : External) (f : StateFork) (m : Mutation) :
    (applyMut ext f m).snapshots = f.snapshots := by
  cases m with
  | setBalance a b => rfl
  | setNonce a n => rfl
  | setStorageAt a s v => rfl
  | getBalance a =>
    simp only [applyMut, GetBalanceFork]
    cases f.cache.balances a with
    | some b => rfl
    | none =>
      cases ext.balances a with
      | none => rfl
      | some b => rfl
  | getNonce a =>
    simp only [applyMut, GetNonceFork]
    cases f.cache.nonces a with
    | some b => rfl
    | none =>
      cases ext.nonces a with
      | none => rfl
      | some b => rfl
  | getCode a =>
    simp only [applyMut, GetCodeFork]
    cases f.cache.code a with
    | some b => rfl
    | none =>
      cases ext.code a with
      | none => rfl
      | some b => rfl
  | getStorageAt a s =>
    simp only [applyMut, GetStorageAtFork]
    cases (f.cache.storage a).bind (fun m => m s) with
    | some b => rfl
    | none =>
      cases ext.storage a s with
      | none => rfl
      | some b => rfl

/-- No mutation sequence touches the snapshot stack. -/
theorem applyMuts_snapshots (ext : External) (muts : List Mutation) :
    ∀ f, (applyMuts ext f muts).snapshots = f.snapshots := by
  induction muts with
  | nil => intro f; rfl
  | cons m ms ih =>
    intro f
    have hstep : applyMuts ext f (m :: ms) = applyMuts ext (applyMut ext f m) ms := rfl
    rw [hstep, ih, applyMut_snapshots]

end Simulator

/-- Claim C10: RevertToSnapshot with a negative id or an id at or past the
stack length returns the invalid-snapshot error and leaves the fork (tier-1
cache and snapshot stack) unchanged. -/
theorem revertToSnapshot_invalid (f : Simulator.StateFork) (snapID : Int)
    (h : snapID < 0 ∨ (f.snapshots.length : Int) ≤ snapID) :
    Simulator.RevertToSnapshot f snapID = Except.error "invalid snapshot id" ∧
      Simulator.revertRun f snapID = f := by
  have he : Simulator.RevertToSnapshot f snapID = Except.error "invalid snapshot id" := by
    unfold Simulator.RevertToSnapshot
    rw [dif_pos h]
  refine ⟨he, ?_⟩
  unfold Simulator.revertRun
  rw [he]

/-- Claim C10, witness: reverting an empty-stack fork to id 3 errors and
changes nothing. -/
theorem revertToSnapshot_invalid_witness :
    ((3 : Int) < 0 ∨ ((([] : List Simulator.StateCache).length : Int) ≤ 3)) ∧
      (Simulator.RevertToSnapshot
          { cache := Simulator.NewStateCache, snapshots := [] } 3 =
          Except.error "invalid snapshot id" ∧
        Simulator.revertRun { cache := Simulator.NewStateCache, snapshots := [] } 3 =
          { cache := Simulator.NewStateCache, snapshots := [] }) :=
  ⟨Or.inr (by decide),
    revertToSnapshot_invalid { cache := Simulator.NewStateCache, snapshots := [] } 3
      (Or.inr (by decide))⟩

/-- Claim C1: for any snapshot handle taken on fork F, after arbitrary
tier-1 mutations (setters and read-induced backfills) reverting to the
handle yields exactly the tier-1 cache F had at snapshot time and the
snapshot stack truncated back to its pre-snapshot state; reverting to the
same handle again then fails, so the handle is not reusable. -/
theorem snapshot_revert_restores (ext : Simulator.External) (F : Simulator.StateFork)
    (muts : List Simulator.Mutation) :
    Simulator.RevertToSnapshot
        (Simulator.applyMuts ext (Simulator.Snapshot F).2 muts)
        ((Simulator.Snapshot F).1 : Int) =
      Except.ok { cache := F.cache, snapshots := F.snapshots } ∧
    Simulator.RevertToSnapshot { cache := F.cache, snapshots := F.snapshots }
        ((Simulator.Snapshot F).1 : Int) =
      Except.error "invalid snapshot id" := by
  constructor
  · apply Simulator.revert_append F _ []
    rw [Simulator.applyMuts_snapshots]
    show F.snapshots ++ [F.cache] = F.snapshots ++ [F.cache] ++ []
    simp
  · unfold Simulator.RevertToSnapshot
    exact dif_pos (Or.inr (le_refl ((F.snapshots.length : Nat) : Int)))

/-- Claim C5: evaluation of GetCodeHash at the failing input — for the
non-empty code 0x6000 the adapter returns the code bytes right-aligned in
a word (0x6000 = 24576), not a keccak-256 digest of them; the empty-code
cases (canonical empty hash for an existing account, zero hash for an
absent one) do follow the claim. -/
theorem getCodeHash_at_failing_input :
    Simulator.GetCodeHash { balance := 0, nonce := 0, code := [96, 0] } = 24576 ∧
      Simulator.GetCodeHash { balance := 5, nonce := 0, code := [] } =
        Simulator.emptyCodeHash ∧
      Simulator.GetCodeHash { balance := 0, nonce := 0, code := [] } = 0 := by
  decide

/-- Claim C9: evaluation at the failing input — after
SetTransientState(addr 1, key 2, value 5), GetTransientState(1, 2)
returns the zero word, not 5: the setter is a no-op and the getter is
constant zero. -/
theorem transientState_stub :
    Simulator.GetTransientState
        (Simulator.SetTransientState Simulator.NewForkedStateDB 1 2 5) 1 2 = 0 ∧
      (5 : Word) ≠ 0 :=
  ⟨rfl, by decide⟩

namespace Simulator

/-- Reverting to a transaction's own snapshot index, over whatever the
interpreter left above it, restores the fork the transaction started
from. -/
theorem revertRun_snapshot_extras (f : StateFork) (post : StateCache)
    (extras : List StateCache) :
    revertRun { cache := post, snapshots := (Snapshot f).2.snapshots ++ extras }
        ((Snapshot f).1 : Int) =
      { cache := f.cache, snapshots := f.snapshots } := by
  have h : ((Snapshot f).1 : Int) = ((f.snapshots.length : Nat) : Int) := rfl
  rw [h]
  exact revertRun_append f _ extras rfl

/-- A transaction execution only ever appends to the snapshot stack it
started from: its own snapshot and the interpreter's leftovers stay above
the caller's entries, and the failure paths revert exactly back to the
starting stack. -/
theorem executeTransaction_snapshots (f : StateFork) (tx : Tx) :
    ∃ tl, (ExecuteTransaction f tx).2.snapshots = f.snapshots ++ tl := by
  unfold ExecuteTransaction
  cases tx.senderErr with
  | some e => exact ⟨[], by simp⟩
  | none =>
    cases tx.intrinsicErr with
    | some e => exact ⟨[f.cache], rfl⟩
    | none =>
      cases ho : (tx.run (Snapshot f).2.cache).err with
      | some e =>
        simp only [ho]
        refine ⟨[], ?_⟩
        rw [revertRun_snapshot_extras f]
        simp
      | none =>
        simp only [ho]
        cases hfl : (tx.run (Snapshot f).2.cache).failed with
        | true =>
          rw [if_pos (by simp [hfl])]
          refine ⟨[], ?_⟩
          rw [revertRun_snapshot_extras f]
          simp
        | false =>
          rw [if_neg (by simp [hfl])]
          exact ⟨[f.cache] ++ (tx.run (Snapshot f).2.cache).extras, by simp [Snapshot]⟩

end Simulator

namespace Simulator

/-- A transaction that reports success keeps its interpreter mutations:
the fork it leaves carries the post-cache of its message run, with no
revert applied. -/
theorem executeTransaction_success_cache (f : StateFork) (tx : Tx)
    (sim : SimulationResult) (f1 : StateFork)
    (hE : ExecuteTransaction f tx = (Except.ok sim, f1)) (hs : sim.success = true) :
    f1.cache = (tx.run f.cache).post := by
  unfold ExecuteTransaction at hE
  cases hse : tx.senderErr with
  | some e =>
    simp only [hse] at hE
    exact absurd (congrArg Prod.fst hE) (by simp)
  | none =>
    simp only [hse] at hE
    cases hie : tx.intrinsicErr with
    | some e =>
      simp only [hie] at hE
      exact absurd (congrArg Prod.fst hE) (by simp)
    | none =>
      simp only [hie] at hE
      cases ho : (tx.run (Snapshot f).2.cache).err with
      | some e =>
        simp only [ho] at hE
        rw [Prod.mk.injEq] at hE
        rw [← Except.ok.inj hE.1] at hs
        simp at hs
      | none =>
        simp only [ho] at hE
        cases hfl : (tx.run (Snapshot f).2.cache).failed with
        | true =>
          simp only [hfl] at hE
          rw [if_pos trivial] at hE
          rw [Prod.mk.injEq] at hE
          rw [← Except.ok.inj hE.1] at hs
          simp at hs
        | false =>
          simp only [hfl] at hE
          rw [if_neg (by decide)] at hE
          rw [Prod.mk.injEq] at hE
          rw [← hE.2]
          rfl

/-- Invariant of the transaction loop of ExecuteBundle: started below the
bundle snapshot (stack prefix f0.snapshots ++ [f0.cache]) with an
all-success accumulator, the loop returns results in list order, sums the
per-transaction gas, and on the first failure reverts the fork to the
bundle-start state f0. -/
theorem bundleLoop_spec (f0 : StateFork) :
    ∀ (rest : List Tx) (f : StateFork) (acc : BundleResult) (tail : List StateCache),
      f.snapshots = f0.snapshots ++ [f0.cache] ++ tail →
      acc.success = true →
      acc.revertedAt = -1 →
      acc.totalGasUsed = (acc.transactions.map TxResult.gasUsed).sum →
      (∀ t ∈ acc.transactions, t.success = true) →
      (match bundleLoop f0.snapshots.length f rest acc.transactions.length acc with
       | (Except.error _, f2) => f2.cache = f0.cache ∧ f2.snapshots = f0.snapshots
       | (Except.ok r, f2) =>
           r.totalGasUsed = (r.transactions.map TxResult.gasUsed).sum ∧
           acc.transactions.length ≤ r.transactions.length ∧
           r.transactions.map TxResult.txHash =
             acc.transactions.map TxResult.txHash ++
               (rest.take (r.transactions.length - acc.transactions.length)).map Tx.hash ∧
           (r.success = false →
             r.transactions ≠ [] ∧
             r.revertedAt = (r.transactions.length : Int) - 1 ∧
             (∀ t ∈ r.transactions.dropLast, t.success = true) ∧
             r.transactions.getLast?.map TxResult.success = some false ∧
             f2.cache = f0.cache ∧ f2.snapshots = f0.snapshots) ∧
           (r.success = true →
             r.revertedAt = -1 ∧
             r.transactions.length = acc.transactions.length + rest.length ∧
             (∀ t ∈ r.transactions, t.success = true) ∧
             f2.cache = retainedCache rest f.cache)) := by
  intro rest
  induction rest with
  | nil =>
    intro f acc tail hf ha1 ha2 ha3 ha4
    simp only [bundleLoop]
    refine ⟨ha3, le_refl _, by simp, ?_, ?_⟩
    · intro h
      rw [ha1] at h
      exact absurd h (by decide)
    · intro _
      exact ⟨ha2, by simp, ha4, rfl⟩
  | cons tx rest ih =>
    intro f acc tail hf ha1 ha2 ha3 ha4
    obtain ⟨tl1, htl1⟩ := executeTransaction_snapshots f tx
    simp only [bundleLoop]
    rcases hE : ExecuteTransaction f tx with ⟨er, f1⟩
    rw [hE] at htl1
    have hf1 : f1.snapshots = f0.snapshots ++ [f0.cache] ++ (tail ++ tl1) := by
      rw [htl1, hf]
      simp [List.append_assoc]
    cases er with
    | error e =>
      dsimp only
      rw [revertRun_append f0 f1 (tail ++ tl1) hf1]
      exact ⟨rfl, rfl⟩
    | ok sim =>
      dsimp only
      cases hs : sim.success with
      | false =>
        rw [if_neg (by decide)]
        refine ⟨by simp [ha3], by simp, ?_, ?_, ?_⟩
        · simp [List.take_succ_cons]
        · intro _
          refine ⟨by simp, ?_, ?_, ?_, ?_, ?_⟩
          · simp only [List.length_append, List.length_cons, List.length_nil]
            push_cast
            ring
          · rw [List.dropLast_concat]
            exact ha4
          · rw [List.getLast?_concat]
            simp
          · rw [revertRun_append f0 f1 (tail ++ tl1) hf1]
          · rw [revertRun_append f0 f1 (tail ++ tl1) hf1]
        · intro h
          exact absurd h (by simp)
      | true =>
        rw [if_pos rfl]
        have hlen : (acc.transactions ++
            [{ txHash := tx.hash, success := true, gasUsed := sim.gasUsed,
               logs := sim.logs, returnData := sim.returnData,
               revertReason := sim.revertReason : TxResult }]).length =
            acc.transactions.length + 1 := by simp
        have IH := ih f1
          { acc with
            transactions := acc.transactions ++
              [{ txHash := tx.hash, success := true, gasUsed := sim.gasUsed,
                 logs := sim.logs, returnData := sim.returnData,
                 revertReason := sim.revertReason }]
            totalGasUsed := acc.totalGasUsed + sim.gasUsed }
          (tail ++ tl1) hf1 ha1 ha2 (by simp [ha3])
          (by
            intro t ht
            rcases List.mem_append.mp ht with h | h
            · exact ha4 t h
            · rw [List.mem_singleton.mp h])
        rw [hlen] at IH
        rcases hB : bundleLoop f0.snapshots.length f1 rest (acc.transactions.length + 1)
            { acc with
              transactions := acc.transactions ++
                [{ txHash := tx.hash, success := true, gasUsed := sim.gasUsed,
                   logs := sim.logs, returnData := sim.returnData,
                   revertReason := sim.revertReason }]
              totalGasUsed := acc.totalGasUsed + sim.gasUsed } with ⟨res2, f2⟩
        rw [hB] at IH
        cases res2 with
        | error e2 => exact IH
        | ok r =>
          obtain ⟨g1, g2, g3, g4, g5⟩ := IH
          have hg2 : acc.transactions.length + 1 ≤ r.transactions.length := by
            simpa using g2
          refine ⟨g1, by omega, ?_, g4, ?_⟩
          · have hd : r.transactions.length - acc.transactions.length =
                (r.transactions.length - (acc.transactions.length + 1)) + 1 := by omega
            rw [hd, List.take_succ_cons, List.map_cons]
            rw [g3]
            simp
          · intro hrt
            obtain ⟨ra, rl, rall, rc⟩ := g5 hrt
            have hc := executeTransaction_success_cache f tx sim f1 hE hs
            refine ⟨ra, ?_, rall, ?_⟩
            · simp only [List.length_append, List.length_cons, List.length_nil] at rl ⊢
              omega
            · have hr : retainedCache (tx :: rest) f.cache =
                  retainedCache rest ((tx.run f.cache).post) := rfl
              rw [hr, ← hc]
              exact rc

end Simulator

/-- Claim C2: a non-empty bundle executes its transactions strictly in
list order; if some transaction reports success = false the bundle result
is marked failed with RevertedAt the failing index (all earlier ones
succeeded) and the fork is reverted to the bundle-start snapshot, so its
tier-1 cache and snapshot stack equal their pre-call state; if all
succeed, RevertedAt is -1, every recorded result succeeded, TotalGasUsed
is the sum of the per-transaction gas, and all mutations are retained:
the final tier-1 cache is the composition of the transactions'
interpreter effects, with no revert applied. -/
theorem executeBundle_atomic (f : Simulator.StateFork) (txs : List Simulator.Tx)
    (res : Simulator.BundleResult) (hne : txs ≠ [])
    (hok : (Simulator.ExecuteBundle f txs).1 = Except.ok res) :
    res.totalGasUsed = (res.transactions.map Simulator.TxResult.gasUsed).sum ∧
    res.transactions.map Simulator.TxResult.txHash =
      (txs.take res.transactions.length).map Simulator.Tx.hash ∧
    (res.success = false →
      res.transactions ≠ [] ∧
      res.revertedAt = (res.transactions.length : Int) - 1 ∧
      (∀ t ∈ res.transactions.dropLast, t.success = true) ∧
      res.transactions.getLast?.map Simulator.TxResult.success = some false ∧
      (Simulator.ExecuteBundle f txs).2.cache = f.cache ∧
      (Simulator.ExecuteBundle f txs).2.snapshots = f.snapshots) ∧
    (res.success = true →
      res.revertedAt = -1 ∧
      res.transactions.length = txs.length ∧
      (∀ t ∈ res.transactions, t.success = true) ∧
      (Simulator.ExecuteBundle f txs).2.cache =
        Simulator.retainedCache txs f.cache) := by
  have hMain := Simulator.bundleLoop_spec f txs (Simulator.Snapshot f).2
    { success := true, transactions := [], totalGasUsed := 0, revertedAt := -1 } []
    (by simp [Simulator.Snapshot]) rfl rfl rfl (by intro t ht; cases ht)
  have hEB : Simulator.ExecuteBundle f txs =
      Simulator.bundleLoop f.snapshots.length (Simulator.Snapshot f).2 txs
        ({ success := true, transactions := [], totalGasUsed := 0,
           revertedAt := -1 } : Simulator.BundleResult).transactions.length
        { success := true, transactions := [], totalGasUsed := 0, revertedAt := -1 } := by
    unfold Simulator.ExecuteBundle
    rw [if_neg (by simp [hne])]
    rfl
  rcases hP : Simulator.bundleLoop f.snapshots.length (Simulator.Snapshot f).2 txs
      ({ success := true, transactions := [], totalGasUsed := 0,
         revertedAt := -1 } : Simulator.BundleResult).transactions.length
      { success := true, transactions := [], totalGasUsed := 0, revertedAt := -1 }
    with ⟨r1, f2⟩
  rw [hP] at hMain
  rw [hEB, hP] at hok ⊢
  cases r1 with
  | error e => exact absurd hok (by simp)
  | ok r =>
    have hr : r = res := by
      simpa using hok
    rw [hr] at hMain
    obtain ⟨g1, _, g3, g4, g5⟩ := hMain
    refine ⟨g1, ?_, ?_, ?_⟩
    · simpa using g3
    · intro hfail
      obtain ⟨q1, q2, q3, q4, q5, q6⟩ := g4 hfail
      exact ⟨q1, q2, q3, q4, q5, q6⟩
    · intro hsucc
      obtain ⟨q1, q2, q3, q4⟩ := g5 hsucc
      exact ⟨q1, by simpa using q2, q3, q4⟩

/-- Claim C2, witness: two concrete one-transaction bundles on an empty
fork.  The first transaction fails (7 gas, revert reason oops) and the
bundle restores the fork's tier-1 cache and snapshot stack; the second
succeeds (9 gas) writing balance 42 for address 1, and the bundle leaves
exactly the retained post-cache behind. -/
theorem executeBundle_atomic_witness :
    (([{ hash := 0, senderErr := none, intrinsicErr := none,
         run := fun c =>
           { err := none, post := c, extras := [], failed := true, usedGas := 7,
             returnData := [], logs := [], errMsg := "oops" } }] :
        List Simulator.Tx) ≠ [] ∧
     (Simulator.ExecuteBundle { cache := Simulator.NewStateCache, snapshots := [] }
         [{ hash := 0, senderErr := none, intrinsicErr := none,
            run := fun c =>
              { err := none, post := c, extras := [], failed := true, usedGas := 7,
                returnData := [], logs := [], errMsg := "oops" } }]).1 =
       Except.ok
         { success := false,
           transactions := [{ txHash := 0, success := false, gasUsed := 7, logs := [],
                              returnData := [], revertReason := "oops" }],
           totalGasUsed := 7, revertedAt := 0 } ∧
     ((Simulator.ExecuteBundle { cache := Simulator.NewStateCache, snapshots := [] }
          [{ hash := 0, senderErr := none, intrinsicErr := none,
             run := fun c =>
               { err := none, post := c, extras := [], failed := true, usedGas := 7,
                 returnData := [], logs := [], errMsg := "oops" } }]).2.cache =
        ({ cache := Simulator.NewStateCache, snapshots := [] } :
          Simulator.StateFork).cache ∧
      (Simulator.ExecuteBundle { cache := Simulator.NewStateCache, snapshots := [] }
          [{ hash := 0, senderErr := none, intrinsicErr := none,
             run := fun c =>
               { err := none, post := c, extras := [], failed := true, usedGas := 7,
                 returnData := [], logs := [], errMsg := "oops" } }]).2.snapshots =
        ({ cache := Simulator.NewStateCache, snapshots := [] } :
          Simulator.StateFork).snapshots)) ∧
    (([{ hash := 3, senderErr := none, intrinsicErr := none,
         run := fun c =>
           { err := none,
             post := { c with
               balances := fun a => if a = 1 then some 42 else c.balances a },
             extras := [], failed := false, usedGas := 9, returnData := [],
             logs := [], errMsg := "" } }] : List Simulator.Tx) ≠ [] ∧
     (Simulator.ExecuteBundle { cache := Simulator.NewStateCache, snapshots := [] }
         [{ hash := 3, senderErr := none, intrinsicErr := none,
            run := fun c =>
              { err := none,
                post := { c with
                  balances := fun a => if a = 1 then some 42 else c.balances a },
                extras := [], failed := false, usedGas := 9, returnData := [],
                logs := [], errMsg := "" } }]).1 =
       Except.ok
         { success := true,
           transactions := [{ txHash := 3, success := true, gasUsed := 9, logs := [],
                              returnData := [], revertReason := "" }],
           totalGasUsed := 9, revertedAt := -1 } ∧
     (Simulator.ExecuteBundle { cache := Simulator.NewStateCache, snapshots := [] }
         [{ hash := 3, senderErr := none, intrinsicErr := none,
            run := fun c =>
              { err := none,
                post := { c with
                  balances := fun a => if a = 1 then some 42 else c.balances a },
                extras := [], failed := false, usedGas := 9, returnData := [],
                logs := [], errMsg := "" } }]).2.cache =
       Simulator.retainedCache
         [{ hash := 3, senderErr := none, intrinsicErr := none,
            run := fun c =>
              { err := none,
                post := { c with
                  balances := fun a => if a = 1 then some 42 else c.balances a },
                extras := [], failed := false, usedGas := 9, returnData := [],
                logs := [], errMsg := "" } }]
         ({ cache := Simulator.NewStateCache, snapshots := [] } :
           Simulator.StateFork).cache) :=
  ⟨⟨by simp, rfl,
    ((executeBundle_atomic { cache := Simulator.NewStateCache, snapshots := [] }
        [{ hash := 0, senderErr := none, intrinsicErr := none,
           run := fun c =>
             { err := none, post := c, extras := [], failed := true, usedGas := 7,
               returnData := [], logs := [], errMsg := "oops" } }]
        { success := false,
          transactions := [{ txHash := 0, success := false, gasUsed := 7, logs := [],
                             returnData := [], revertReason := "oops" }],
          totalGasUsed := 7, revertedAt := 0 } (by simp) rfl).2.2.1 rfl).2.2.2.2⟩,
   ⟨by simp, rfl,
    ((executeBundle_atomic { cache := Simulator.NewStateCache, snapshots := [] }
        [{ hash := 3, senderErr := none, intrinsicErr := none,
           run := fun c =>
             { err := none,
               post := { c with
                 balances := fun a => if a = 1 then some 42 else c.balances a },
               extras := [], failed := false, usedGas := 9, returnData := [],
               logs := [], errMsg := "" } }]
        { success := true,
          transactions := [{ txHash := 3, success := true, gasUsed := 9, logs := [],
                             returnData := [], revertReason := "" }],
          totalGasUsed := 9, revertedAt := -1 } (by simp) rfl).2.2.2 rfl).2.2.2⟩⟩

namespace Backtest

/-- Membership after one map write: the written key now maps to the new
direction; other keys are untouched. -/
theorem mem_updateSwap (m : List (Address × Int)) (a : Address) (dl : Int)
    (p : Address) (d : Int) :
    (p, d) ∈ updateSwap m a dl ↔ (p = a ∧ d = dl) ∨ (p ≠ a ∧ (p, d) ∈ m) := by
  unfold updateSwap
  by_cases hex : m.any (fun q => q.1 = a)
  · rw [if_pos hex]
    constructor
    · intro hmem
      obtain ⟨x, hx, hfx⟩ := List.mem_map.mp hmem
      by_cases hxa : x.1 = a
      · rw [if_pos hxa] at hfx
        left
        exact ⟨(Prod.mk.injEq _ _ _ _).mp hfx.symm |>.1,
          (Prod.mk.injEq _ _ _ _).mp hfx.symm |>.2⟩
      · rw [if_neg hxa] at hfx
        right
        refine ⟨?_, hfx ▸ hx⟩
        intro hpa
        exact hxa (by rw [hfx]; exact hpa)
    · intro hmem
      rcases hmem with ⟨hpa, hdd⟩ | ⟨hpa, hpm⟩
      · obtain ⟨x, hx, hxa⟩ := List.any_eq_true.mp hex
        refine List.mem_map.mpr ⟨x, hx, ?_⟩
        rw [if_pos (by simpa using hxa)]
        rw [hpa, hdd]
      · refine List.mem_map.mpr ⟨(p, d), hpm, ?_⟩
        rw [if_neg (by simpa using hpa)]
  · rw [if_neg hex]
    rw [List.mem_append, List.mem_singleton]
    constructor
    · intro hmem
      rcases hmem with hm | he
      · right
        refine ⟨?_, hm⟩
        intro hpa
        apply hex
        refine List.any_eq_true.mpr ⟨(p, d), hm, by simpa using hpa⟩
      · left
        exact ⟨(Prod.mk.injEq _ _ _ _).mp he |>.1, (Prod.mk.injEq _ _ _ _).mp he |>.2⟩
    · intro hmem
      rcases hmem with ⟨hpa, hdd⟩ | ⟨_, hpm⟩
      · right
        rw [hpa, hdd]
      · left
        exact hpm

/-- Pair matching is symmetric. -/
theorem arePairMatched_symm (groups : List (List Address)) (a b : Address) :
    arePairMatched groups a b = arePairMatched groups b a := by
  unfold arePairMatched
  congr 1
  funext g
  exact Bool.and_comm _ _

/-- Pair matching says some group holds both addresses. -/
theorem arePairMatched_iff (groups : List (List Address)) (a b : Address) :
    arePairMatched groups a b = true ↔ ∃ g ∈ groups, a ∈ g ∧ b ∈ g := by
  unfold arePairMatched
  simp

/-- The nested pair scan finds exactly the pairs of recorded entries that
are pair-matched with differing directions. -/
theorem hasOppositePair_iff (groups : List (List Address)) :
    ∀ m : List (Address × Int),
      hasOppositePair groups m = true ↔
        ∃ a da b db, (a, da) ∈ m ∧ (b, db) ∈ m ∧
          arePairMatched groups a b = true ∧ da ≠ db := by
  intro m
  induction m with
  | nil => simp [hasOppositePair]
  | cons hd rest ih =>
    rcases hd with ⟨a0, d0⟩
    rw [hasOppositePair]
    rw [Bool.or_eq_true]
    constructor
    · intro h
      rcases h with h | h
      · obtain ⟨q, hq, hcond⟩ := List.any_eq_true.mp h
        rw [Bool.and_eq_true] at hcond
        refine ⟨a0, d0, q.1, q.2, List.mem_cons_self _ _, List.mem_cons_of_mem _ ?_,
          hcond.1, by simpa using hcond.2⟩
        simpa using hq
      · obtain ⟨a, da, b, db, ha, hb, hm, hne⟩ := ih.mp h
        exact ⟨a, da, b, db, List.mem_cons_of_mem _ ha, List.mem_cons_of_mem _ hb, hm, hne⟩
    · intro h
      obtain ⟨a, da, b, db, ha, hb, hm, hne⟩ := h
      rcases List.mem_cons.mp ha with ha0 | har
      · rcases List.mem_cons.mp hb with hb0 | hbr
        · exfalso
          apply hne
          have h1 := (Prod.mk.injEq _ _ _ _).mp ha0
          have h2 := (Prod.mk.injEq _ _ _ _).mp hb0
          rw [h1.2, h2.2]
        · left
          refine List.any_eq_true.mpr ⟨(b, db), hbr, ?_⟩
          rw [Bool.and_eq_true]
          have h1 := (Prod.mk.injEq _ _ _ _).mp ha0
          exact ⟨h1.1 ▸ hm, by simpa using h1.2 ▸ hne⟩
      · rcases List.mem_cons.mp hb with hb0 | hbr
        · left
          refine List.any_eq_true.mpr ⟨(a, da), har, ?_⟩
          rw [Bool.and_eq_true]
          have h2 := (Prod.mk.injEq _ _ _ _).mp hb0
          refine ⟨?_, ?_⟩
          · rw [arePairMatched_symm]
            exact h2.1 ▸ hm
          · simp only [decide_eq_true_eq]
            intro hda
            exact hne (by rw [h2.2, hda])
        · right
          exact ih.mpr ⟨a, da, b, db, har, hbr, hm, hne⟩

/-- A list holding two different elements has length at least two. -/
theorem two_le_length_of_two_mem {α : Type} (m : List α) (x y : α)
    (hx : x ∈ m) (hy : y ∈ m) (hne : x ≠ y) : 2 ≤ m.length := by
  cases m with
  | nil => cases hx
  | cons a t =>
    cases t with
    | nil =>
      exfalso
      apply hne
      rw [List.mem_singleton.mp hx, List.mem_singleton.mp hy]
    | cons b t2 => simp

end Backtest

namespace Backtest

/-- The entries of the per-transaction pool-swap map are exactly the
tracked pools with a non-zero-direction swap log, each mapped to the
direction of its last such log. -/
theorem mem_poolSwapsOf (tracked : Address → Bool) (logs : List Log)
    (p : Address) (d : Int) :
    (p, d) ∈ poolSwapsOf tracked logs ↔
      tracked p = true ∧ d ≠ 0 ∧ lastSwapDir logs p = d := by
  induction logs using List.reverseRecOn with
  | nil =>
    simp only [poolSwapsOf, List.foldl_nil, lastSwapDir, List.not_mem_nil, false_iff]
    rintro ⟨_, hd, h0⟩
    exact hd h0.symm
  | append_singleton logs l ih =>
    have hps : poolSwapsOf tracked (logs ++ [l]) =
        (if tracked l.address = true then
          (if swapDirection l ≠ 0 then
            updateSwap (poolSwapsOf tracked logs) l.address (swapDirection l)
           else poolSwapsOf tracked logs)
         else poolSwapsOf tracked logs) := by
      unfold poolSwapsOf
      rw [List.foldl_append]
      rfl
    have hld : lastSwapDir (logs ++ [l]) p =
        (if l.address = p ∧ swapDirection l ≠ 0 then swapDirection l
         else lastSwapDir logs p) := by
      unfold lastSwapDir
      rw [List.foldl_append]
      rfl
    rw [hps, hld]
    by_cases htr : tracked l.address = true
    · rw [if_pos htr]
      by_cases hdz : swapDirection l ≠ 0
      · rw [if_pos hdz, mem_updateSwap]
        by_cases hap : l.address = p
        · rw [if_pos ⟨hap, hdz⟩]
          subst hap
          constructor
          · rintro (⟨_, hd⟩ | ⟨hpa, _⟩)
            · exact ⟨htr, by rw [hd]; exact hdz, hd.symm⟩
            · exact absurd rfl hpa
          · rintro ⟨_, _, hdd⟩
            exact Or.inl ⟨rfl, hdd.symm⟩
        · rw [if_neg (fun hc => hap hc.1), ih]
          constructor
          · rintro (⟨hpa, _⟩ | ⟨_, hmm⟩)
            · exact absurd hpa.symm hap
            · exact hmm
          · intro hrhs
            exact Or.inr ⟨fun hpa => hap hpa.symm, hrhs⟩
      · rw [if_neg hdz, if_neg (fun hc => hdz hc.2)]
        exact ih
    · rw [if_neg htr]
      by_cases hap : l.address = p
      · by_cases hdz : swapDirection l ≠ 0
        · rw [if_pos ⟨hap, hdz⟩, ih]
          subst hap
          constructor
          · rintro ⟨htp, _, _⟩
            exact absurd htp htr
          · rintro ⟨htp, _, _⟩
            exact absurd htp htr
        · rw [if_neg (fun hc => hdz hc.2)]
          exact ih
      · rw [if_neg (fun hc => hap hc.1)]
        exact ih

/-- The +1 direction holds exactly for a well-formed Swap log moving
token0 in and token1 out. -/
theorem swapDirection_eq_one_iff (l : Log) :
    swapDirection l = 1 ↔
      l.topics.head? = some swapEventTopic ∧ 128 ≤ l.data.length ∧
      0 < bytesToNat (l.data.take 32) ∧ 0 < bytesToNat ((l.data.drop 96).take 32) ∧
      bytesToNat ((l.data.drop 32).take 32) = 0 ∧
      bytesToNat ((l.data.drop 64).take 32) = 0 := by
  unfold swapDirection
  dsimp only
  split_ifs with h1 h2 h3 h4
  · constructor
    · intro h
      exact absurd h (by decide)
    · rintro ⟨ht, _⟩
      exact absurd ht h1
  · constructor
    · intro h
      exact absurd h (by decide)
    · rintro ⟨_, hlen, _⟩
      omega
  · constructor
    · intro _
      exact ⟨not_not.mp h1, by omega, h3.1, h3.2.1, h3.2.2.1, h3.2.2.2⟩
    · intro _
      rfl
  · constructor
    · intro h
      exact absurd h (by decide)
    · rintro ⟨_, _, c1, c2, c3, c4⟩
      exact absurd ⟨c1, c2, c3, c4⟩ h3
  · constructor
    · intro h
      exact absurd h (by decide)
    · rintro ⟨_, _, c1, c2, c3, c4⟩
      exact absurd ⟨c1, c2, c3, c4⟩ h3

/-- The -1 direction holds exactly for a well-formed Swap log moving
token1 in and token0 out. -/
theorem swapDirection_eq_neg_one_iff (l : Log) :
    swapDirection l = -1 ↔
      l.topics.head? = some swapEventTopic ∧ 128 ≤ l.data.length ∧
      0 < bytesToNat ((l.data.drop 32).take 32) ∧
      0 < bytesToNat ((l.data.drop 64).take 32) ∧
      bytesToNat (l.data.take 32) = 0 ∧ bytesToNat ((l.data.drop 96).take 32) = 0 := by
  unfold swapDirection
  dsimp only
  split_ifs with h1 h2 h3 h4
  · constructor
    · intro h
      exact absurd h (by decide)
    · rintro ⟨ht, _⟩
      exact absurd ht h1
  · constructor
    · intro h
      exact absurd h (by decide)
    · rintro ⟨_, hlen, _⟩
      omega
  · constructor
    · intro h
      exact absurd h (by decide)
    · rintro ⟨_, _, c1, c2, c3, c4⟩
      exact absurd h3.1 (by omega)
  · constructor
    · intro _
      exact ⟨not_not.mp h1, by omega, h4.1, h4.2.1, h4.2.2.1, h4.2.2.2⟩
    · intro _
      rfl
  · constructor
    · intro h
      exact absurd h (by decide)
    · rintro ⟨_, _, c1, c2, c3, c4⟩
      exact absurd ⟨c1, c2, c3, c4⟩ h4

end Backtest

/-- Claim C6: a transaction is classified as an arbitrage iff among the
tracked pools with a non-zero-direction Swap log (each pool's direction
being that of its last such log, as the recognizer's map records) there
are two pools in the same pair group with differing directions; and a
log's direction is +1 exactly for a Swap-topic log of full data length
with amount0In > 0, amount1Out > 0 and the other two amounts zero, -1 in
the mirror case. -/
theorem findActualArbitrages_classification (tracked : Address → Bool)
    (groups : List (List Address)) (logs : List Log) :
    (Backtest.isArbTx tracked groups logs = true ↔
      ∃ p q, tracked p = true ∧ tracked q = true ∧
        Backtest.lastSwapDir logs p ≠ 0 ∧ Backtest.lastSwapDir logs q ≠ 0 ∧
        (∃ g ∈ groups, p ∈ g ∧ q ∈ g) ∧
        Backtest.lastSwapDir logs p ≠ Backtest.lastSwapDir logs q) ∧
    (∀ l : Log,
      (Backtest.swapDirection l = 1 ↔
        l.topics.head? = some Backtest.swapEventTopic ∧ 128 ≤ l.data.length ∧
        0 < bytesToNat (l.data.take 32) ∧ 0 < bytesToNat ((l.data.drop 96).take 32) ∧
        bytesToNat ((l.data.drop 32).take 32) = 0 ∧
        bytesToNat ((l.data.drop 64).take 32) = 0) ∧
      (Backtest.swapDirection l = -1 ↔
        l.topics.head? = some Backtest.swapEventTopic ∧ 128 ≤ l.data.length ∧
        0 < bytesToNat ((l.data.drop 32).take 32) ∧
        0 < bytesToNat ((l.data.drop 64).take 32) ∧
        bytesToNat (l.data.take 32) = 0 ∧
        bytesToNat ((l.data.drop 96).take 32) = 0)) := by
  constructor
  · unfold Backtest.isArbTx
    dsimp only
    by_cases hlen : (Backtest.poolSwapsOf tracked logs).length < 2
    · rw [if_pos hlen]
      constructor
      · intro h
        exact absurd h (by decide)
      · rintro ⟨p, q, htp, htq, hnp, hnq, hg, hne⟩
        exfalso
        have hp : (p, Backtest.lastSwapDir logs p) ∈ Backtest.poolSwapsOf tracked logs :=
          (Backtest.mem_poolSwapsOf tracked logs p _).mpr ⟨htp, hnp, rfl⟩
        have hq : (q, Backtest.lastSwapDir logs q) ∈ Backtest.poolSwapsOf tracked logs :=
          (Backtest.mem_poolSwapsOf tracked logs q _).mpr ⟨htq, hnq, rfl⟩
        have hxy : (p, Backtest.lastSwapDir logs p) ≠ (q, Backtest.lastSwapDir logs q) := by
          intro he
          exact hne ((Prod.mk.injEq _ _ _ _).mp he).2
        have h2 := Backtest.two_le_length_of_two_mem _ _ _ hp hq hxy
        omega
    · rw [if_neg hlen, Backtest.hasOppositePair_iff]
      constructor
      · rintro ⟨a, da, b, db, ha, hb, hm, hne⟩
        obtain ⟨hta, hna, hla⟩ := (Backtest.mem_poolSwapsOf tracked logs a da).mp ha
        obtain ⟨htb, hnb, hlb⟩ := (Backtest.mem_poolSwapsOf tracked logs b db).mp hb
        refine ⟨a, b, hta, htb, by rw [hla]; exact hna, by rw [hlb]; exact hnb,
          (Backtest.arePairMatched_iff groups a b).mp hm, ?_⟩
        rw [hla, hlb]
        exact hne
      · rintro ⟨p, q, htp, htq, hnp, hnq, hg, hne⟩
        exact ⟨p, Backtest.lastSwapDir logs p, q, Backtest.lastSwapDir logs q,
          (Backtest.mem_poolSwapsOf tracked logs p _).mpr ⟨htp, hnp, rfl⟩,
          (Backtest.mem_poolSwapsOf tracked logs q _).mpr ⟨htq, hnq, rfl⟩,
          (Backtest.arePairMatched_iff groups p q).mpr hg, hne⟩
  · intro l
    exact ⟨Backtest.swapDirection_eq_one_iff l, Backtest.swapDirection_eq_neg_one_iff l⟩
